import Mathlib

/-!
Shallow embedding of the port-forwarder core of the go-ports repository
(the `Forwarder` type and its methods in the unnamed Go source file).

Network I/O calls (`net.Listen`, `net.ResolveUDPAddr`, `net.ListenUDP`,
`Close`, socket reads/writes) are external to the program; each operation
takes the outcome of those calls as an explicit oracle argument and returns,
next to the new registry state and its result, the list of events it
performed (lock/unlock of the mutex, map bookkeeping, I/O calls), in
program order.  Go maps are modelled as association lists; a Go map has
unique keys, which the code maintains by only inserting after a failed
lookup (`WFkeys` below, preserved by every operation).
-/

namespace GoPorts

/-- Outcome of a bind call (`net.Listen` / `net.ListenUDP`): a fresh listener
handle, or an error. -/
inductive BindResult
  | ok (handle : Nat)
  | err
deriving DecidableEq, Repr

/-- Outcome of `net.ResolveUDPAddr`: a resolved address, or an error. -/
inductive ResolveResult
  | ok (addr : Nat)
  | err
deriving DecidableEq, Repr

/-- Outcome of closing a listener / UDP connection. -/
inductive CloseResult
  | ok
  | err
deriving DecidableEq, Repr

/-- Result of `StartTCPForward` / `StartUDPForward`: nil error, the
"already running" error, the "failed to listen" error, or (UDP only) the
"failed to resolve listen address" error. -/
inductive StartResult
  | ok
  | alreadyRunning
  | bindFailed
  | resolveFailed
deriving DecidableEq, Repr

/-- Result of `StopTCPForward` / `StopUDPForward`: nil error, the
"not running" error, or the "failed to close" error. -/
inductive StopResult
  | ok
  | notRunning
  | closeFailed
deriving DecidableEq, Repr

/-- Events performed by a registry operation, in program order.
`lock`/`unlock` are `f.mu.Lock()` and the deferred `f.mu.Unlock()`;
`lookupEvt`/`insertEvt`/`eraseEvt` are the map accesses; `bindCall`,
`resolveCall` and `closeCall` are the blocking I/O calls; `spawn` is the
`go f.handle...Forward(...)` statement carrying the target it captures. -/
inductive Event
  | lock
  | unlock
  | lookupEvt
  | insertEvt
  | eraseEvt
  | bindCall
  | resolveCall
  | closeCall
  | spawn (targetAddr targetPort : String)
deriving DecidableEq, Repr

/-- The `Forwarder` struct: `tcpListeners` and `udpListeners` maps keyed by
the session-key string, with listener handles as values. -/
structure Forwarder where
  tcpListeners : List (String × Nat)
  udpListeners : List (String × Nat)
deriving DecidableEq, Repr

/-- `NewForwarder`: both maps empty. -/
def NewForwarder : Forwarder := ⟨[], []⟩

/-- TCP session key: the result of the format string "tcp:%s:%s" applied to
the listen address and listen port, exactly as given. -/
def tcpKey (listenAddr listenPort : String) : String :=
  "tcp:" ++ listenAddr ++ ":" ++ listenPort

/-- UDP session key: the format string "udp:%s:%s". -/
def udpKey (listenAddr listenPort : String) : String :=
  "udp:" ++ listenAddr ++ ":" ++ listenPort

/-- Go map indexing `m[key]` (comma-ok form). -/
def lookupKey : List (String × Nat) → String → Option Nat
  | [], _ => none
  | (k, v) :: rest, key => if k = key then some v else lookupKey rest key

/-- Go map `delete(m, key)`: the entry for `key` is removed. -/
def eraseKey (m : List (String × Nat)) (key : String) : List (String × Nat) :=
  m.filter (fun e => decide (e.1 ≠ key))

/-- Number of entries registered under `key`. -/
def countKey (m : List (String × Nat)) (key : String) : Nat :=
  m.countP (fun e => decide (e.1 = key))

/-- Unique-keys invariant of a Go map, which the association-list model must
carry as a side condition. -/
def WFkeys (m : List (String × Nat)) : Prop :=
  (m.map Prod.fst).Nodup

/-- The whole registry is well-formed. -/
def Forwarder.WF (f : Forwarder) : Prop :=
  WFkeys f.tcpListeners ∧ WFkeys f.udpListeners

/-- `StartTCPForward(listenAddr, listenPort, targetAddr, targetPort)`:
builds the key, locks the mutex (unlocked by `defer` on every return path),
returns the already-running error if the key is present, otherwise calls
`net.Listen` (outcome `bind`); on error returns the failed-to-listen error,
otherwise stores the listener under the key and spawns
`handleTCPForward`. -/
def StartTCPForward (f : Forwarder)
    (listenAddr listenPort targetAddr targetPort : String)
    (bind : BindResult) : Forwarder × StartResult × List Event :=
  let key := tcpKey listenAddr listenPort
  match lookupKey f.tcpListeners key with
  | some _ => (f, .alreadyRunning, [.lock, .lookupEvt, .unlock])
  | none =>
    match bind with
    | .err => (f, .bindFailed, [.lock, .lookupEvt, .bindCall, .unlock])
    | .ok h =>
      ({ f with tcpListeners := (key, h) :: f.tcpListeners }, .ok,
        [.lock, .lookupEvt, .bindCall, .insertEvt,
          .spawn targetAddr targetPort, .unlock])

/-- `StopTCPForward(listenAddr, listenPort)`: builds the key, locks the
mutex, returns the not-running error if the key is absent; otherwise closes
the listener (outcome `close`); on close error returns the failed-to-close
error (without deleting), otherwise deletes the entry and returns nil. -/
def StopTCPForward (f : Forwarder) (listenAddr listenPort : String)
    (close : CloseResult) : Forwarder × StopResult × List Event :=
  let key := tcpKey listenAddr listenPort
  match lookupKey f.tcpListeners key with
  | none => (f, .notRunning, [.lock, .lookupEvt, .unlock])
  | some _ =>
    match close with
    | .err => (f, .closeFailed, [.lock, .lookupEvt, .closeCall, .unlock])
    | .ok =>
      ({ f with tcpListeners := eraseKey f.tcpListeners key }, .ok,
        [.lock, .lookupEvt, .closeCall, .eraseEvt, .unlock])

/-- `StartUDPForward`: like the TCP start, but before binding it calls
`net.ResolveUDPAddr` on the listen endpoint (outcome `resolve`), returning
the failed-to-resolve error on error; then `net.ListenUDP` (outcome
`bind`). -/
def StartUDPForward (f : Forwarder)
    (listenAddr listenPort targetAddr targetPort : String)
    (resolve : ResolveResult) (bind : BindResult) :
    Forwarder × StartResult × List Event :=
  let key := udpKey listenAddr listenPort
  match lookupKey f.udpListeners key with
  | some _ => (f, .alreadyRunning, [.lock, .lookupEvt, .unlock])
  | none =>
    match resolve with
    | .err => (f, .resolveFailed, [.lock, .lookupEvt, .resolveCall, .unlock])
    | .ok _ =>
      match bind with
      | .err =>
          (f, .bindFailed,
            [.lock, .lookupEvt, .resolveCall, .bindCall, .unlock])
      | .ok h =>
          ({ f with udpListeners := (key, h) :: f.udpListeners }, .ok,
            [.lock, .lookupEvt, .resolveCall, .bindCall, .insertEvt,
              .spawn targetAddr targetPort, .unlock])

/-- `StopUDPForward`: same shape as `StopTCPForward` over the UDP map. -/
def StopUDPForward (f : Forwarder) (listenAddr listenPort : String)
    (close : CloseResult) : Forwarder × StopResult × List Event :=
  let key := udpKey listenAddr listenPort
  match lookupKey f.udpListeners key with
  | none => (f, .notRunning, [.lock, .lookupEvt, .unlock])
  | some _ =>
    match close with
    | .err => (f, .closeFailed, [.lock, .lookupEvt, .closeCall, .unlock])
    | .ok =>
      ({ f with udpListeners := eraseKey f.udpListeners key }, .ok,
        [.lock, .lookupEvt, .closeCall, .eraseEvt, .unlock])

/-- Decimal parse of a port string, as the Go standard library's
`net.LookupPort`/`dtoi` does for the numeric case: every character must be
a digit; the empty string is not a number. -/
def parseDecNat (s : String) : Option Nat :=
  match s.data with
  | [] => none
  | _ =>
    s.data.foldl
      (fun acc c =>
        match acc with
        | none => none
        | some n => if c.isDigit then some (n * 10 + (c.toNat - 48)) else none)
      (some 0)

/-- Models the port handling of the Go standard library bind/resolve calls
(`net.Listen`, `net.ResolveUDPAddr`): an empty port or a decimal number in
0..65535 is accepted (0 and "" request an ephemeral port); a non-numeric or
larger value makes the call fail.  The forwarder core itself never parses
the port; this captures what the stdlib call it delegates to does. -/
def goPortAccepted (s : String) : Bool :=
  match s.data with
  | [] => true
  | _ =>
    match parseDecNat s with
    | some n => decide (n ≤ 65535)
    | none => false

/-- A bind outcome is consistent with the stdlib's port handling when it
errs on every rejected port string. -/
def bindRespectsPorts (port : String) (b : BindResult) : Prop :=
  goPortAccepted port = false → b = .err

/-- A resolve outcome is consistent with the stdlib's port handling when it
errs on every rejected port string. -/
def resolveRespectsPorts (port : String) (r : ResolveResult) : Prop :=
  goPortAccepted port = false → r = .err

/-- `IsTCPRunning`: comma-ok lookup of the TCP key under the lock. -/
def IsTCPRunning (f : Forwarder) (listenAddr listenPort : String) : Bool :=
  (lookupKey f.tcpListeners (tcpKey listenAddr listenPort)).isSome

/-- `IsUDPRunning`: comma-ok lookup of the UDP key under the lock. -/
def IsUDPRunning (f : Forwarder) (listenAddr listenPort : String) : Bool :=
  (lookupKey f.udpListeners (udpKey listenAddr listenPort)).isSome

/-- Outcome of one `Read` call on a TCP connection inside a copy loop:
`data n` delivers `n` bytes with a nil error, `ioerr` is a non-nil error
(end-of-stream included). -/
inductive IOEvt
  | data (n : Nat)
  | ioerr
deriving DecidableEq, Repr

/-- One copy direction of `forwardData` (the `for` loop of one goroutine):
driven by the finite list of read outcomes its connection will ever
deliver — once the list is exhausted the next `Read` blocks forever, since
nothing in `forwardData` closes either connection.  `writeOk i` is the
outcome of the `Write` on iteration `i`.  Returns `true` iff the loop
reaches one of its `break`s (a read error, or a failed write of a non-empty
chunk); `false` means the goroutine stays blocked in `Read`. -/
def pumpTerminates (writeOk : Nat → Bool) : List IOEvt → Nat → Bool
  | [], _ => false
  | .ioerr :: _, _ => true
  | .data n :: rest, i =>
    if n > 0 && !(writeOk i) then true else pumpTerminates writeOk rest (i + 1)

/-- `forwardData(src, dst)` returns exactly when `wg.Wait()` does, i.e.
when BOTH copy goroutines have terminated. -/
def forwardDataTerminates (w1 w2 : Nat → Bool) (srcReads dstReads : List IOEvt) :
    Bool :=
  pumpTerminates w1 srcReads 0 && pumpTerminates w2 dstReads 0

/-- Outcome of the `net.Dial` toward the target for one accepted
connection. -/
inductive DialResult
  | ok
  | err
deriving DecidableEq, Repr

/-- Events of the per-connection goroutine spawned by `handleTCPForward`:
the dial, the run of `forwardData`, and the two deferred `Close` calls. -/
inductive ConnEvent
  | dialCall
  | pumpRun
  | closeTarget
  | closeConn
deriving DecidableEq, Repr

/-- The per-connection goroutine of `handleTCPForward`: `defer conn.Close()`;
dial the target; on dial error return (only the deferred close of the
inbound connection runs); on success `defer targetConn.Close()` and run
`forwardData`.  The deferred closes run only if `forwardData` returns, which
happens only when both copy goroutines have terminated; the returned list
holds the events that ever happen. -/
def handleTCPConn (dial : DialResult) (w1 w2 : Nat → Bool)
    (srcReads dstReads : List IOEvt) : List ConnEvent :=
  match dial with
  | .err => [.dialCall, .closeConn]
  | .ok =>
    if forwardDataTerminates w1 w2 srcReads dstReads then
      [.dialCall, .pumpRun, .closeTarget, .closeConn]
    else
      [.dialCall, .pumpRun]

/-- Outcome of one `ReadFromUDP` on the bound listening socket: a datagram
with its payload bytes and the sender's address, or a read error. -/
inductive UDPRead
  | dgram (payload : List Nat) (sender : Nat)
  | rerr
deriving DecidableEq, Repr

/-- One `WriteToUDP` call on the listening socket: the payload written and
the destination address. -/
structure UDPSend where
  payload : List Nat
  dest : Nat
deriving DecidableEq, Repr

/-- Observable behaviour of `handleUDPForward`: the writes it performs on
the listening socket toward the target, the client addresses captured by
the spawned reply goroutines, and whether the receive loop ended via a read
error on the main socket. -/
structure UDPRun where
  sends : List UDPSend
  replyClients : List Nat
  endedByReadErr : Bool
deriving DecidableEq, Repr

/-- The receive loop of `handleUDPForward`, after the target has been
resolved to `target`: read a datagram (next element of `reads`; an
exhausted list means the loop is blocked in `ReadFromUDP`); on read error
log and `break`; otherwise `WriteToUDP(buf[:n], target)` on the listening
socket (outcome `writeOk i` for iteration `i`) — on write error log and
`continue`, otherwise spawn the reply goroutine capturing the sender's
address. -/
def handleUDPLoop (target : Nat) (writeOk : Nat → Bool) :
    List UDPRead → Nat → UDPRun
  | [], _ => ⟨[], [], false⟩
  | .rerr :: _, _ => ⟨[], [], true⟩
  | .dgram p s :: rest, i =>
    let r := handleUDPLoop target writeOk rest (i + 1)
    if writeOk i then
      ⟨⟨p, target⟩ :: r.sends, s :: r.replyClients, r.endedByReadErr⟩
    else
      ⟨⟨p, target⟩ :: r.sends, r.replyClients, r.endedByReadErr⟩

/-- `handleUDPForward(conn, targetAddr, targetPort)`: resolve the target
once (outcome `targetResolve`); on error log and return immediately (no
reads, no writes); otherwise run the receive loop against the single
resolved address.  The function never touches the registry maps. -/
def handleUDPForward (targetResolve : ResolveResult) (writeOk : Nat → Bool)
    (reads : List UDPRead) : UDPRun :=
  match targetResolve with
  | .err => ⟨[], [], false⟩
  | .ok target => handleUDPLoop target writeOk reads 0

/-- The events that are blocking I/O calls (`net.Listen`, `net.ListenUDP`,
`net.ResolveUDPAddr`, `Close`). -/
def ioEvent : Event → Bool
  | .bindCall => true
  | .resolveCall => true
  | .closeCall => true
  | _ => false

/-- Whether some I/O event of the trace occurs while the mutex is held;
`held` is the lock state at the start of the trace. -/
def anyIOWhileHeld : List Event → Bool → Bool
  | [], _ => false
  | .lock :: r, _ => anyIOWhileHeld r true
  | .unlock :: r, _ => anyIOWhileHeld r false
  | e :: r, held => (held && ioEvent e) || anyIOWhileHeld r held

/-- Whether some I/O event of the trace occurs while the mutex is NOT
held. -/
def anyIOWhileFree : List Event → Bool → Bool
  | [], _ => false
  | .lock :: r, _ => anyIOWhileFree r true
  | .unlock :: r, _ => anyIOWhileFree r false
  | e :: r, held => (!held && ioEvent e) || anyIOWhileFree r held

/-- Spec-side description: the payloads of the datagrams received before
the first read error (the datagrams the loop forwards). -/
def specUDPForwarded : List UDPRead → List (List Nat)
  | [] => []
  | .rerr :: _ => []
  | .dgram p _ :: rest => p :: specUDPForwarded rest

/-- Spec-side description: the sender addresses of the datagrams received
before the first read error. -/
def specUDPSenders : List UDPRead → List Nat
  | [] => []
  | .rerr :: _ => []
  | .dgram _ s :: rest => s :: specUDPSenders rest

/-- Spec-side description: whether the read sequence ever delivers a read
error (the only thing that ends the receive loop). -/
def specUDPEnded : List UDPRead → Bool
  | [] => false
  | .rerr :: _ => true
  | .dgram _ _ :: rest => specUDPEnded rest

/-! ### Helper lemmas about the registry maps -/

theorem lookupKey_eq_none_iff (m : List (String × Nat)) (key : String) :
    lookupKey m key = none ↔ key ∉ m.map Prod.fst := by
  induction m with
  | nil => simp [lookupKey]
  | cons e rest ih =>
    obtain ⟨k, v⟩ := e
    by_cases hk : k = key
    · subst hk; simp [lookupKey]
    · simp [lookupKey, hk, ih, Ne.symm hk]

theorem countKey_eq_zero_of_not_mem (m : List (String × Nat)) (key : String) :
    key ∉ m.map Prod.fst → countKey m key = 0 := by
  induction m with
  | nil => intro _; simp [countKey]
  | cons e rest ih =>
    intro h
    simp only [List.map_cons, List.mem_cons, not_or] at h
    have h0 := ih h.2
    unfold countKey at h0 ⊢
    rw [List.countP_cons, h0]
    simp [Ne.symm h.1]

theorem countKey_eq_one_of_lookup (m : List (String × Nat)) (key : String)
    (v : Nat) : WFkeys m → lookupKey m key = some v → countKey m key = 1 := by
  induction m with
  | nil => intro _ hl; simp [lookupKey] at hl
  | cons e rest ih =>
    intro hw hl
    obtain ⟨k, w⟩ := e
    rw [WFkeys, List.map_cons, List.nodup_cons] at hw
    by_cases hk : k = key
    · subst hk
      have h0 : countKey rest k = 0 := countKey_eq_zero_of_not_mem rest k hw.1
      unfold countKey at h0 ⊢
      rw [List.countP_cons, h0]
      simp
    · simp only [lookupKey, if_neg hk] at hl
      have h1 := ih hw.2 hl
      unfold countKey at h1 ⊢
      rw [List.countP_cons, h1]
      simp [hk]

theorem lookupKey_eraseKey (m : List (String × Nat)) (key : String) :
    lookupKey (eraseKey m key) key = none := by
  rw [lookupKey_eq_none_iff]
  intro hmem
  obtain ⟨e, he, hfst⟩ := List.mem_map.mp hmem
  have := List.of_mem_filter he
  simp [hfst] at this

theorem WFkeys_eraseKey (m : List (String × Nat)) (key : String)
    (hw : WFkeys m) : WFkeys (eraseKey m key) := by
  exact List.Nodup.sublist (List.Sublist.map Prod.fst (List.filter_sublist m)) hw

theorem WFkeys_insert (m : List (String × Nat)) (key : String) (v : Nat)
    (hw : WFkeys m) (habs : lookupKey m key = none) :
    WFkeys ((key, v) :: m) := by
  rw [WFkeys, List.map_cons, List.nodup_cons]
  exact ⟨(lookupKey_eq_none_iff m key).mp habs, hw⟩

/-- `NewForwarder` satisfies the unique-keys invariant, and every operation
preserves it, so every reachable registry state is well-formed. -/
theorem WF_invariant :
    NewForwarder.WF ∧
    (∀ f a p ta tp b, f.WF → (StartTCPForward f a p ta tp b).1.WF) ∧
    (∀ f a p ta tp r b, f.WF → (StartUDPForward f a p ta tp r b).1.WF) ∧
    (∀ f a p c, f.WF → (StopTCPForward f a p c).1.WF) ∧
    (∀ f a p c, f.WF → (StopUDPForward f a p c).1.WF) := by
  refine ⟨⟨List.nodup_nil, List.nodup_nil⟩, ?_, ?_, ?_, ?_⟩
  · intro f a p ta tp b hf
    rcases hl : lookupKey f.tcpListeners (tcpKey a p) with _ | v
    · cases b with
      | err => simpa only [StartTCPForward, hl] using hf
      | ok h =>
        simp only [StartTCPForward, hl]
        exact ⟨WFkeys_insert _ _ _ hf.1 hl, hf.2⟩
    · simpa only [StartTCPForward, hl] using hf
  · intro f a p ta tp r b hf
    rcases hl : lookupKey f.udpListeners (udpKey a p) with _ | v
    · cases r with
      | err => simpa only [StartUDPForward, hl] using hf
      | ok addr =>
        cases b with
        | err => simpa only [StartUDPForward, hl] using hf
        | ok h =>
          simp only [StartUDPForward, hl]
          exact ⟨hf.1, WFkeys_insert _ _ _ hf.2 hl⟩
    · simpa only [StartUDPForward, hl] using hf
  · intro f a p c hf
    rcases hl : lookupKey f.tcpListeners (tcpKey a p) with _ | v
    · simpa only [StopTCPForward, hl] using hf
    · cases c with
      | err => simpa only [StopTCPForward, hl] using hf
      | ok =>
        simp only [StopTCPForward, hl]
        exact ⟨WFkeys_eraseKey _ _ hf.1, hf.2⟩
  · intro f a p c hf
    rcases hl : lookupKey f.udpListeners (udpKey a p) with _ | v
    · simpa only [StopUDPForward, hl] using hf
    · cases c with
      | err => simpa only [StopUDPForward, hl] using hf
      | ok =>
        simp only [StopUDPForward, hl]
        exact ⟨hf.1, WFkeys_eraseKey _ _ hf.2⟩

/-! ### Helper lemmas about key strings -/

theorem append_cons_eq_of_not_mem {α : Type} (c : α) :
    ∀ x y u v : List α, c ∉ x → c ∉ y → x ++ c :: u = y ++ c :: v →
      x = y ∧ u = v := by
  intro x
  induction x with
  | nil =>
    intro y u v _ hy h
    cases y with
    | nil => simpa using h
    | cons b y' =>
      simp only [List.nil_append, List.cons_append, List.cons.injEq] at h
      exact absurd (h.1 ▸ List.mem_cons_self b y') hy
  | cons a x' ih =>
    intro y u v hx hy h
    cases y with
    | nil =>
      simp only [List.cons_append, List.nil_append, List.cons.injEq] at h
      exact absurd (h.1 ▸ List.mem_cons_self a x') hx
    | cons b y' =>
      simp only [List.cons_append, List.cons.injEq] at h
      obtain ⟨rfl, h2⟩ := h
      have hx' : c ∉ x' := fun hm => hx (List.mem_cons_of_mem _ hm)
      have hy' : c ∉ y' := fun hm => hy (List.mem_cons_of_mem _ hm)
      obtain ⟨rfl, rfl⟩ := ih y' u v hx' hy' h2
      exact ⟨rfl, rfl⟩

theorem tcpKey_data (s t : String) :
    (tcpKey s t).data = 't' :: 'c' :: 'p' :: ':' :: (s.data ++ ':' :: t.data) := by
  simp [tcpKey, String.data_append]

theorem udpKey_data (s t : String) :
    (udpKey s t).data = 'u' :: 'd' :: 'p' :: ':' :: (s.data ++ ':' :: t.data) := by
  simp [udpKey, String.data_append]

theorem addr_port_split_inj (a₁ p₁ a₂ p₂ : String)
    (h1 : ':' ∉ p₁.data) (h2 : ':' ∉ p₂.data)
    (h : a₁.data ++ ':' :: p₁.data = a₂.data ++ ':' :: p₂.data) :
    a₁ = a₂ ∧ p₁ = p₂ := by
  have hr := congrArg List.reverse h
  simp only [List.reverse_append, List.reverse_cons] at hr
  rw [List.append_assoc, List.append_assoc, List.singleton_append,
    List.singleton_append] at hr
  have h1' : ':' ∉ p₁.data.reverse := by simpa using h1
  have h2' : ':' ∉ p₂.data.reverse := by simpa using h2
  obtain ⟨hp, ha⟩ :=
    append_cons_eq_of_not_mem ':' _ _ _ _ h1' h2' hr
  exact ⟨String.ext (List.reverse_injective ha),
    String.ext (List.reverse_injective hp)⟩

/-! ### Helper lemmas about the UDP receive loop -/

theorem handleUDPLoop_sends (target : Nat) (writeOk : Nat → Bool)
    (reads : List UDPRead) : ∀ i : Nat,
    (handleUDPLoop target writeOk reads i).sends =
      (specUDPForwarded reads).map (fun p => ⟨p, target⟩) := by
  induction reads with
  | nil => intro i; simp [handleUDPLoop, specUDPForwarded]
  | cons r rest ih =>
    intro i
    cases r with
    | rerr => simp [handleUDPLoop, specUDPForwarded]
    | dgram p s =>
      by_cases hw : writeOk i <;>
        simp [handleUDPLoop, specUDPForwarded, hw, ih (i + 1)]

theorem handleUDPLoop_ended (target : Nat) (writeOk : Nat → Bool)
    (reads : List UDPRead) : ∀ i : Nat,
    (handleUDPLoop target writeOk reads i).endedByReadErr =
      specUDPEnded reads := by
  induction reads with
  | nil => intro i; simp [handleUDPLoop, specUDPEnded]
  | cons r rest ih =>
    intro i
    cases r with
    | rerr => simp [handleUDPLoop, specUDPEnded]
    | dgram p s =>
      by_cases hw : writeOk i <;>
        simp [handleUDPLoop, specUDPEnded, hw, ih (i + 1)]

theorem handleUDPLoop_replyClients (target : Nat) (writeOk : Nat → Bool)
    (reads : List UDPRead) : ∀ i : Nat,
    List.Sublist (handleUDPLoop target writeOk reads i).replyClients
      (specUDPSenders reads) := by
  induction reads with
  | nil => intro i; simp [handleUDPLoop, specUDPSenders]
  | cons r rest ih =>
    intro i
    cases r with
    | rerr => simp [handleUDPLoop, specUDPSenders]
    | dgram p s =>
      by_cases hw : writeOk i
      · simpa [handleUDPLoop, specUDPSenders, hw] using
          List.Sublist.cons₂ s (ih (i + 1))
      · simpa [handleUDPLoop, specUDPSenders, hw] using
          List.Sublist.cons s (ih (i + 1))

/-! ### Claim C1 -/

/-- C1, counterexample: on a registry with a TCP session for
(127.0.0.1, 8080), `StopTCPForward` whose `Close` call fails returns the
close error and leaves the session registered, so `IsTCPRunning`
afterwards returns `true`, not `false` as the claim states. -/
theorem stop_isRunning_counterexample :
    IsTCPRunning ⟨[(tcpKey "127.0.0.1" "8080", 1)], []⟩ "127.0.0.1" "8080"
        = true ∧
    (StopTCPForward ⟨[(tcpKey "127.0.0.1" "8080", 1)], []⟩ "127.0.0.1" "8080"
        .err).2.1 = .closeFailed ∧
    IsTCPRunning
        (StopTCPForward ⟨[(tcpKey "127.0.0.1" "8080", 1)], []⟩ "127.0.0.1"
          "8080" .err).1 "127.0.0.1" "8080" = true := by
  decide

/-- C1, amended: for every endpoint, after a `StartTCPForward` whose bind
succeeds, `IsTCPRunning` on the same arguments returns true; after a
`StopTCPForward` whose close succeeds, `IsTCPRunning` returns false; but
when the close fails the session stays registered and `IsTCPRunning`
keeps returning true.  The same holds for the UDP operations. -/
theorem start_stop_isRunning_amended (f g : Forwarder)
    (a p ta tp : String) (h hu r : Nat) :
    IsTCPRunning (StartTCPForward f a p ta tp (.ok h)).1 a p = true ∧
    IsTCPRunning (StopTCPForward f a p .ok).1 a p = false ∧
    (lookupKey g.tcpListeners (tcpKey a p) = some h →
      IsTCPRunning (StopTCPForward g a p .err).1 a p = true) ∧
    IsUDPRunning (StartUDPForward f a p ta tp (.ok r) (.ok hu)).1 a p = true ∧
    IsUDPRunning (StopUDPForward f a p .ok).1 a p = false ∧
    (lookupKey g.udpListeners (udpKey a p) = some hu →
      IsUDPRunning (StopUDPForward g a p .err).1 a p = true) := by
  refine ⟨?_, ?_, ?_, ?_, ?_, ?_⟩
  · rcases hl : lookupKey f.tcpListeners (tcpKey a p) with _ | v
    · simp [StartTCPForward, hl, IsTCPRunning, lookupKey]
    · simp [StartTCPForward, hl, IsTCPRunning]
  · rcases hl : lookupKey f.tcpListeners (tcpKey a p) with _ | v
    · simp [StopTCPForward, hl, IsTCPRunning]
    · simp [StopTCPForward, hl, IsTCPRunning, lookupKey_eraseKey]
  · intro hg
    simp [StopTCPForward, hg, IsTCPRunning]
  · rcases hl : lookupKey f.udpListeners (udpKey a p) with _ | v
    · simp [StartUDPForward, hl, IsUDPRunning, lookupKey]
    · simp [StartUDPForward, hl, IsUDPRunning]
  · rcases hl : lookupKey f.udpListeners (udpKey a p) with _ | v
    · simp [StopUDPForward, hl, IsUDPRunning]
    · simp [StopUDPForward, hl, IsUDPRunning, lookupKey_eraseKey]
  · intro hg
    simp [StopUDPForward, hg, IsUDPRunning]

/-- C1, witness: the amended theorem applied at a concrete registry holding
a TCP and a UDP session for ("a", "1"). -/
theorem start_stop_isRunning_amended_witness :
    IsTCPRunning
        (StopTCPForward ⟨[(tcpKey "a" "1", 3)], [(udpKey "a" "1", 4)]⟩ "a" "1"
          .err).1 "a" "1" = true ∧
    IsUDPRunning
        (StopUDPForward ⟨[(tcpKey "a" "1", 3)], [(udpKey "a" "1", 4)]⟩ "a" "1"
          .err).1 "a" "1" = true := by
  have h := start_stop_isRunning_amended
    ⟨[(tcpKey "a" "1", 3)], [(udpKey "a" "1", 4)]⟩
    ⟨[(tcpKey "a" "1", 3)], [(udpKey "a" "1", 4)]⟩ "a" "1" "t" "9" 3 4 0
  exact ⟨h.2.2.1 (by decide), h.2.2.2.2.2 (by decide)⟩

/-! ### Claim C2 -/

/-- C2 (confirmed): when a session already exists for the key, a second
`StartTCPForward` with the same arguments returns the already-running
error, leaves the registry state unchanged, and its event trace is just
lock/lookup/unlock — the existence check happens inside the critical
section and no bind call is made; under the unique-keys invariant exactly
one session stays registered for that key.  Same for `StartUDPForward`. -/
theorem double_start_alreadyRunning (f : Forwarder) (a p ta tp : String)
    (v w : Nat) (b : BindResult) (r : ResolveResult) (hWF : f.WF)
    (ht : lookupKey f.tcpListeners (tcpKey a p) = some v)
    (hu : lookupKey f.udpListeners (udpKey a p) = some w) :
    StartTCPForward f a p ta tp b =
      (f, .alreadyRunning, [.lock, .lookupEvt, .unlock]) ∧
    countKey f.tcpListeners (tcpKey a p) = 1 ∧
    StartUDPForward f a p ta tp r b =
      (f, .alreadyRunning, [.lock, .lookupEvt, .unlock]) ∧
    countKey f.udpListeners (udpKey a p) = 1 := by
  refine ⟨?_, countKey_eq_one_of_lookup _ _ _ hWF.1 ht, ?_,
    countKey_eq_one_of_lookup _ _ _ hWF.2 hu⟩
  · simp [StartTCPForward, ht]
  · simp [StartUDPForward, hu]

/-- C2, witness: the theorem applied at a concrete registry holding a TCP
and a UDP session for ("0.0.0.0", "53"). -/
theorem double_start_alreadyRunning_witness :
    StartTCPForward ⟨[(tcpKey "0.0.0.0" "53", 3)], [(udpKey "0.0.0.0" "53", 4)]⟩
        "0.0.0.0" "53" "10.0.0.9" "5353" (.ok 8) =
      (⟨[(tcpKey "0.0.0.0" "53", 3)], [(udpKey "0.0.0.0" "53", 4)]⟩,
        .alreadyRunning, [.lock, .lookupEvt, .unlock]) ∧
    countKey [(tcpKey "0.0.0.0" "53", 3)] (tcpKey "0.0.0.0" "53") = 1 := by
  have h := double_start_alreadyRunning
    ⟨[(tcpKey "0.0.0.0" "53", 3)], [(udpKey "0.0.0.0" "53", 4)]⟩
    "0.0.0.0" "53" "10.0.0.9" "5353" 3 4 (.ok 8) (.ok 2)
    ⟨by unfold WFkeys; decide, by unfold WFkeys; decide⟩ (by decide) (by decide)
  exact ⟨h.1, h.2.1⟩

/-! ### Claim C3 -/

/-- C3, counterexample: on a registry with a TCP session for
(10.0.0.1, 80), `StopTCPForward` whose close fails returns the close
error and the registry entry is still present afterwards — the claim that
the entry is gone after any stop on a registered key, including when the
close fails, is false on the code. -/
theorem stop_remove_counterexample :
    (StopTCPForward ⟨[(tcpKey "10.0.0.1" "80", 7)], []⟩ "10.0.0.1" "80"
        .err).2.1 = .closeFailed ∧
    lookupKey (StopTCPForward ⟨[(tcpKey "10.0.0.1" "80", 7)], []⟩ "10.0.0.1"
        "80" .err).1.tcpListeners (tcpKey "10.0.0.1" "80") = some 7 := by
  decide

/-- C3, amended: on a registered key, `StopTCPForward` looks up the session
under the lock and then closes its listening resource FIRST; only when the
close succeeds does it delete the registry entry (the event trace is
lock, lookup, close, erase, unlock, and the entry is gone); when the close
fails it returns the close error with the registry unchanged, the entry
still registered.  Same for `StopUDPForward`. -/
theorem stop_close_then_erase_amended (f : Forwarder) (a p : String)
    (v w : Nat)
    (ht : lookupKey f.tcpListeners (tcpKey a p) = some v)
    (hu : lookupKey f.udpListeners (udpKey a p) = some w) :
    (StopTCPForward f a p .ok =
      ({ f with tcpListeners := eraseKey f.tcpListeners (tcpKey a p) }, .ok,
        [.lock, .lookupEvt, .closeCall, .eraseEvt, .unlock])) ∧
    lookupKey (StopTCPForward f a p .ok).1.tcpListeners (tcpKey a p)
        = none ∧
    StopTCPForward f a p .err =
      (f, .closeFailed, [.lock, .lookupEvt, .closeCall, .unlock]) ∧
    (StopUDPForward f a p .ok =
      ({ f with udpListeners := eraseKey f.udpListeners (udpKey a p) }, .ok,
        [.lock, .lookupEvt, .closeCall, .eraseEvt, .unlock])) ∧
    lookupKey (StopUDPForward f a p .ok).1.udpListeners (udpKey a p)
        = none ∧
    StopUDPForward f a p .err =
      (f, .closeFailed, [.lock, .lookupEvt, .closeCall, .unlock]) := by
  refine ⟨?_, ?_, ?_, ?_, ?_, ?_⟩ <;>
    simp [StopTCPForward, StopUDPForward, ht, hu, lookupKey_eraseKey]

/-- C3, witness: the amended theorem applied at a concrete registry holding
a TCP and a UDP session for ("10.0.0.1", "80"). -/
theorem stop_close_then_erase_amended_witness :
    lookupKey (StopTCPForward ⟨[(tcpKey "10.0.0.1" "80", 7)],
        [(udpKey "10.0.0.1" "80", 8)]⟩ "10.0.0.1" "80" .ok).1.tcpListeners
        (tcpKey "10.0.0.1" "80") = none ∧
    StopUDPForward ⟨[(tcpKey "10.0.0.1" "80", 7)], [(udpKey "10.0.0.1" "80", 8)]⟩
        "10.0.0.1" "80" .err =
      (⟨[(tcpKey "10.0.0.1" "80", 7)], [(udpKey "10.0.0.1" "80", 8)]⟩,
        .closeFailed, [.lock, .lookupEvt, .closeCall, .unlock]) := by
  have h := stop_close_then_erase_amended
    ⟨[(tcpKey "10.0.0.1" "80", 7)], [(udpKey "10.0.0.1" "80", 8)]⟩
    "10.0.0.1" "80" 7 8 (by decide) (by decide)
  exact ⟨h.2.1, h.2.2.2.2.2⟩

/-! ### Claim C4 -/

/-- C4 (confirmed): on a key with no registered session for the protocol,
`StopTCPForward` (resp. `StopUDPForward`) returns the not-running error,
leaves the registry state exactly unchanged, and performs no close call
(its event trace is just lock/lookup/unlock). -/
theorem stop_absent_notRunning (f : Forwarder) (a p : String)
    (c : CloseResult)
    (ht : lookupKey f.tcpListeners (tcpKey a p) = none)
    (hu : lookupKey f.udpListeners (udpKey a p) = none) :
    StopTCPForward f a p c = (f, .notRunning, [.lock, .lookupEvt, .unlock]) ∧
    Event.closeCall ∉ (StopTCPForward f a p c).2.2 ∧
    StopUDPForward f a p c = (f, .notRunning, [.lock, .lookupEvt, .unlock]) ∧
    Event.closeCall ∉ (StopUDPForward f a p c).2.2 := by
  refine ⟨?_, ?_, ?_, ?_⟩ <;> simp [StopTCPForward, StopUDPForward, ht, hu]

/-- C4, witness: the theorem applied to the empty registry. -/
theorem stop_absent_notRunning_witness :
    StopTCPForward NewForwarder "127.0.0.1" "9999" .ok =
      (NewForwarder, .notRunning, [.lock, .lookupEvt, .unlock]) ∧
    StopUDPForward NewForwarder "127.0.0.1" "9999" .ok =
      (NewForwarder, .notRunning, [.lock, .lookupEvt, .unlock]) := by
  have h := stop_absent_notRunning NewForwarder "127.0.0.1" "9999" .ok
    (by decide) (by decide)
  exact ⟨h.1, h.2.2.1⟩

/-! ### Claim C5 -/

/-- C5, counterexample: a connection whose inbound side immediately
delivers a read error while the target side never delivers anything: the
src-to-dst copy goroutine terminates, but `forwardData` does not return
(it waits for BOTH goroutines), so neither deferred `Close` ever runs —
the claim that both connections are closed as soon as either direction
observes an error is false on the code, and the opposite direction's read
stays blocked. -/
theorem pump_close_counterexample :
    pumpTerminates (fun _ => true) [.ioerr] 0 = true ∧
    handleTCPConn .ok (fun _ => true) (fun _ => true) [.ioerr] [] =
      [.dialCall, .pumpRun] ∧
    ConnEvent.closeConn ∉
      handleTCPConn .ok (fun _ => true) (fun _ => true) [.ioerr] [] ∧
    ConnEvent.closeTarget ∉
      handleTCPConn .ok (fun _ => true) (fun _ => true) [.ioerr] [] ∧
    pumpTerminates (fun _ => true) [] 0 = false := by
  have h : handleTCPConn .ok (fun _ => true) (fun _ => true) [.ioerr] [] =
      [.dialCall, .pumpRun] := rfl
  refine ⟨rfl, h, ?_, ?_, rfl⟩ <;> rw [h] <;> decide

/-- C5, amended: the per-connection task closes the inbound and target
connections (its deferred closes run) exactly when BOTH copy directions
have terminated — `forwardData` joins the two copy goroutines before
returning.  An end-of-stream or I/O error observed by one direction alone
closes nothing, and nothing in the pump unblocks the opposite direction's
read: a copy goroutine ends only when its own read or write errors.  On a
dial failure the inbound connection is closed immediately. -/
theorem pump_close_requires_both_amended (w1 w2 : Nat → Bool)
    (srcReads dstReads : List IOEvt) :
    ((ConnEvent.closeConn ∈ handleTCPConn .ok w1 w2 srcReads dstReads ∨
      ConnEvent.closeTarget ∈ handleTCPConn .ok w1 w2 srcReads dstReads) ↔
      (pumpTerminates w1 srcReads 0 = true ∧
        pumpTerminates w2 dstReads 0 = true)) ∧
    ConnEvent.closeConn ∈ handleTCPConn .err w1 w2 srcReads dstReads := by
  constructor
  · unfold handleTCPConn forwardDataTerminates
    cases h1 : pumpTerminates w1 srcReads 0 <;>
      cases h2 : pumpTerminates w2 dstReads 0 <;> simp
  · simp [handleTCPConn]

/-! ### Claim C6 -/

/-- C6, counterexample: the port string "0" is outside the claimed valid
range 1–65535, yet the Go standard library accepts it (it requests an
ephemeral port), so a bind outcome that succeeds on port "0" is consistent
with the stdlib; with it, `StartTCPForward` on a fresh registry returns
ok and registers a session — the claim that every out-of-range port makes
the start fail and register nothing is false on the code, which performs
no port validation of its own. -/
theorem invalid_port_counterexample :
    goPortAccepted "0" = true ∧
    parseDecNat "0" = some 0 ∧
    bindRespectsPorts "0" (.ok 7) ∧
    (StartTCPForward NewForwarder "127.0.0.1" "0" "10.0.0.1" "80"
        (.ok 7)).2.1 = .ok ∧
    IsTCPRunning (StartTCPForward NewForwarder "127.0.0.1" "0" "10.0.0.1"
        "80" (.ok 7)).1 "127.0.0.1" "0" = true := by
  refine ⟨by decide, by decide, ?_, by decide, by decide⟩
  unfold bindRespectsPorts
  decide

/-- C6, amended: the forwarder core performs no port parsing or validation
itself; it delegates to the stdlib bind/resolve calls.  For a port string
the stdlib rejects — non-numeric, or a number above 65535 (ports "0" and
"" are accepted as ephemeral-port requests) — `StartTCPForward` returns an
error and never ok, the registry is unchanged, and when the key was free
the error is the bind error; `StartUDPForward` likewise fails, at its
listen-address resolve step. -/
theorem invalid_port_amended (f : Forwarder) (a p ta tp : String)
    (b b' : BindResult) (r : ResolveResult)
    (hp : goPortAccepted p = false)
    (hb : bindRespectsPorts p b) (hr : resolveRespectsPorts p r) :
    (StartTCPForward f a p ta tp b).2.1 ≠ .ok ∧
    (StartTCPForward f a p ta tp b).1 = f ∧
    (StartUDPForward f a p ta tp r b').2.1 ≠ .ok ∧
    (StartUDPForward f a p ta tp r b').1 = f ∧
    (lookupKey f.tcpListeners (tcpKey a p) = none →
      (StartTCPForward f a p ta tp b).2.1 = .bindFailed) ∧
    (lookupKey f.udpListeners (udpKey a p) = none →
      (StartUDPForward f a p ta tp r b').2.1 = .resolveFailed) := by
  have hb' : b = .err := hb hp
  have hr' : r = .err := hr hp
  subst hb' hr'
  refine ⟨?_, ?_, ?_, ?_, ?_, ?_⟩
  · rcases hl : lookupKey f.tcpListeners (tcpKey a p) with _ | v <;>
      simp [StartTCPForward, hl]
  · rcases hl : lookupKey f.tcpListeners (tcpKey a p) with _ | v <;>
      simp [StartTCPForward, hl]
  · rcases hl : lookupKey f.udpListeners (udpKey a p) with _ | v <;>
      simp [StartUDPForward, hl]
  · rcases hl : lookupKey f.udpListeners (udpKey a p) with _ | v <;>
      simp [StartUDPForward, hl]
  · intro hl; simp [StartTCPForward, hl]
  · intro hl; simp [StartUDPForward, hl]

/-- C6, witness: the amended theorem applied to the out-of-range port
"70000" on the empty registry, with erring bind and resolve outcomes
(the only ones consistent with the stdlib there). -/
theorem invalid_port_amended_witness :
    (StartTCPForward NewForwarder "127.0.0.1" "70000" "10.0.0.1" "80"
        .err).2.1 = .bindFailed ∧
    (StartUDPForward NewForwarder "127.0.0.1" "70000" "10.0.0.1" "80"
        .err .err).2.1 = .resolveFailed := by
  have h := invalid_port_amended NewForwarder "127.0.0.1" "70000" "10.0.0.1"
    "80" .err .err .err (by decide) (fun _ => rfl) (fun _ => rfl)
  exact ⟨h.2.2.2.2.1 (by decide), h.2.2.2.2.2 (by decide)⟩

/-! ### Claim C7 -/

/-- C7, counterexample: the keys are bare string concatenations, so the
distinct pairs ("a:b", "c") and ("a", "b:c") collide on the same TCP key —
key equality does not imply address/port equality over all strings. -/
theorem key_injective_counterexample :
    tcpKey "a:b" "c" = tcpKey "a" "b:c" ∧ ¬("a:b" = "a" ∧ "c" = "b:c") := by
  decide

/-- C7, amended: provided the port strings contain no colon (every numeric
port does), the session keys are injective: two TCP (resp. UDP) keys are
equal iff the address and port pairs are equal; and a TCP key never equals
a UDP key, so distinct (protocol, listenAddress, listenPort) triples never
share a registry entry. -/
theorem key_injective_amended (a₁ p₁ a₂ p₂ : String)
    (h1 : ':' ∉ p₁.data) (h2 : ':' ∉ p₂.data) :
    (tcpKey a₁ p₁ = tcpKey a₂ p₂ ↔ a₁ = a₂ ∧ p₁ = p₂) ∧
    (udpKey a₁ p₁ = udpKey a₂ p₂ ↔ a₁ = a₂ ∧ p₁ = p₂) ∧
    tcpKey a₁ p₁ ≠ udpKey a₂ p₂ := by
  refine ⟨⟨?_, ?_⟩, ⟨?_, ?_⟩, ?_⟩
  · intro h
    have hd := congrArg String.data h
    rw [tcpKey_data, tcpKey_data] at hd
    simp only [List.cons.injEq, true_and] at hd
    exact addr_port_split_inj _ _ _ _ h1 h2 hd
  · rintro ⟨rfl, rfl⟩; rfl
  · intro h
    have hd := congrArg String.data h
    rw [udpKey_data, udpKey_data] at hd
    simp only [List.cons.injEq, true_and] at hd
    exact addr_port_split_inj _ _ _ _ h1 h2 hd
  · rintro ⟨rfl, rfl⟩; rfl
  · intro h
    have hd := congrArg String.data h
    rw [tcpKey_data, udpKey_data] at hd
    simp only [List.cons.injEq] at hd
    exact absurd hd.1 (by decide)

/-- C7, witness: the amended theorem applied at the colon-free ports "80"
and "81". -/
theorem key_injective_amended_witness :
    (tcpKey "127.0.0.1" "80" = tcpKey "127.0.0.1" "81" ↔
      "127.0.0.1" = "127.0.0.1" ∧ "80" = "81") ∧
    tcpKey "127.0.0.1" "80" ≠ udpKey "127.0.0.1" "81" := by
  have h := key_injective_amended "127.0.0.1" "80" "127.0.0.1" "81"
    (by decide) (by decide)
  exact ⟨h.1, h.2.2⟩

/-! ### Claim C8 -/

/-- C8 (confirmed): `handleUDPForward` resolves the target once, before its
loop, and then: every datagram received on the listening socket before the
first read error is written, with its identical payload, to that single
resolved target — and the writes are `WriteToUDP` calls on the listening
socket itself, which is what the `sends` field records; each spawned reply
goroutine captures the sender's address of its datagram; the receive loop
ends exactly when a read on the main socket errors, and write outcomes
toward the target influence neither the forwarded datagrams nor the loop's
termination. -/
theorem udp_relay_behavior (target : Nat) (writeOk writeOk' : Nat → Bool)
    (reads : List UDPRead) :
    (handleUDPForward (.ok target) writeOk reads).sends =
      (specUDPForwarded reads).map (fun p => ⟨p, target⟩) ∧
    (∀ s ∈ (handleUDPForward (.ok target) writeOk reads).sends,
      s.dest = target) ∧
    (handleUDPForward (.ok target) writeOk reads).endedByReadErr =
      specUDPEnded reads ∧
    (handleUDPForward (.ok target) writeOk reads).sends =
      (handleUDPForward (.ok target) writeOk' reads).sends ∧
    (handleUDPForward (.ok target) writeOk reads).endedByReadErr =
      (handleUDPForward (.ok target) writeOk' reads).endedByReadErr ∧
    List.Sublist (handleUDPForward (.ok target) writeOk reads).replyClients
      (specUDPSenders reads) := by
  have hs := handleUDPLoop_sends target writeOk reads 0
  have hs' := handleUDPLoop_sends target writeOk' reads 0
  have he := handleUDPLoop_ended target writeOk reads 0
  have he' := handleUDPLoop_ended target writeOk' reads 0
  have hrc := handleUDPLoop_replyClients target writeOk reads 0
  simp only [handleUDPForward]
  refine ⟨hs, ?_, he, hs.trans hs'.symm, he.trans he'.symm, hrc⟩
  intro s hmem
  rw [hs] at hmem
  obtain ⟨pl, _, rfl⟩ := List.mem_map.mp hmem
  rfl

/-! ### Claim C9 -/

/-- C9, counterexample: on a fresh registry, a successful
`StartTCPForward` performs its `net.Listen` call while the mutex is held
(the method locks at entry and unlocks only by `defer` at return) — the
claim that the bind executes outside the critical section is false on the
code. -/
theorem lock_io_counterexample :
    (StartTCPForward NewForwarder "127.0.0.1" "8080" "10.0.0.1" "80"
        (.ok 1)).2.2 =
      [.lock, .lookupEvt, .bindCall, .insertEvt, .spawn "10.0.0.1" "80",
        .unlock] ∧
    anyIOWhileHeld (StartTCPForward NewForwarder "127.0.0.1" "8080"
        "10.0.0.1" "80" (.ok 1)).2.2 false = true := by
  decide

/-- C9, amended: the opposite discipline holds — every blocking I/O call
any registry operation performs (the TCP bind, the UDP resolve and bind,
and the closes in the stop operations) executes WHILE the registry lock is
held, never outside it: each method locks on entry and unlocks only via
`defer` on return.  Formally, over every input, an operation's trace has
an I/O event under the held lock exactly when it has an I/O event at all,
and never has one while the lock is free. -/
theorem lock_held_across_io_amended (f : Forwarder) (a p ta tp : String)
    (b : BindResult) (r : ResolveResult) (c : CloseResult) :
    anyIOWhileFree (StartTCPForward f a p ta tp b).2.2 false = false ∧
    anyIOWhileHeld (StartTCPForward f a p ta tp b).2.2 false =
      (StartTCPForward f a p ta tp b).2.2.any ioEvent ∧
    anyIOWhileFree (StartUDPForward f a p ta tp r b).2.2 false = false ∧
    anyIOWhileHeld (StartUDPForward f a p ta tp r b).2.2 false =
      (StartUDPForward f a p ta tp r b).2.2.any ioEvent ∧
    anyIOWhileFree (StopTCPForward f a p c).2.2 false = false ∧
    anyIOWhileHeld (StopTCPForward f a p c).2.2 false =
      (StopTCPForward f a p c).2.2.any ioEvent ∧
    anyIOWhileFree (StopUDPForward f a p c).2.2 false = false ∧
    anyIOWhileHeld (StopUDPForward f a p c).2.2 false =
      (StopUDPForward f a p c).2.2.any ioEvent := by
  refine ⟨?_, ?_, ?_, ?_, ?_, ?_, ?_, ?_⟩
  · rcases hl : lookupKey f.tcpListeners (tcpKey a p) with _ | v
    · cases b <;> simp [StartTCPForward, hl, anyIOWhileFree, ioEvent]
    · simp [StartTCPForward, hl, anyIOWhileFree, ioEvent]
  · rcases hl : lookupKey f.tcpListeners (tcpKey a p) with _ | v
    · cases b <;> simp [StartTCPForward, hl, anyIOWhileHeld, ioEvent]
    · simp [StartTCPForward, hl, anyIOWhileHeld, ioEvent]
  · rcases hl : lookupKey f.udpListeners (udpKey a p) with _ | v
    · cases r with
      | err => simp [StartUDPForward, hl, anyIOWhileFree, ioEvent]
      | ok addr =>
        cases b <;> simp [StartUDPForward, hl, anyIOWhileFree, ioEvent]
    · simp [StartUDPForward, hl, anyIOWhileFree, ioEvent]
  · rcases hl : lookupKey f.udpListeners (udpKey a p) with _ | v
    · cases r with
      | err => simp [StartUDPForward, hl, anyIOWhileHeld, ioEvent]
      | ok addr =>
        cases b <;> simp [StartUDPForward, hl, anyIOWhileHeld, ioEvent]
    · simp [StartUDPForward, hl, anyIOWhileHeld, ioEvent]
  · rcases hl : lookupKey f.tcpListeners (tcpKey a p) with _ | v
    · simp [StopTCPForward, hl, anyIOWhileFree, ioEvent]
    · cases c <;> simp [StopTCPForward, hl, anyIOWhileFree, ioEvent]
  · rcases hl : lookupKey f.tcpListeners (tcpKey a p) with _ | v
    · simp [StopTCPForward, hl, anyIOWhileHeld, ioEvent]
    · cases c <;> simp [StopTCPForward, hl, anyIOWhileHeld, ioEvent]
  · rcases hl : lookupKey f.udpListeners (udpKey a p) with _ | v
    · simp [StopUDPForward, hl, anyIOWhileFree, ioEvent]
    · cases c <;> simp [StopUDPForward, hl, anyIOWhileFree, ioEvent]
  · rcases hl : lookupKey f.udpListeners (udpKey a p) with _ | v
    · simp [StopUDPForward, hl, anyIOWhileHeld, ioEvent]
    · cases c <;> simp [StopUDPForward, hl, anyIOWhileHeld, ioEvent]

/-! ### Claim C10 -/

/-- C10 (confirmed): `StartUDPForward` never consults the target — its
resulting registry state and its result are identical for any two target
address/port pairs — and with the listen-side resolve and bind succeeding
on a free key it returns ok and registers the session, `IsUDPRunning`
returning true; the target is first resolved inside the spawned
`handleUDPForward` goroutine, which on a resolve failure returns
immediately, forwarding nothing, spawning no reply goroutine and not
ending through the read-error path — and since it never touches the
registry, the session stays registered until an explicit stop. -/
theorem udp_start_ignores_target (f : Forwarder)
    (a p ta tp ta' tp' : String) (r : ResolveResult) (b : BindResult)
    (ra hb : Nat) (writeOk : Nat → Bool) (reads : List UDPRead)
    (habs : lookupKey f.udpListeners (udpKey a p) = none) :
    (StartUDPForward f a p ta tp r b).1 =
      (StartUDPForward f a p ta' tp' r b).1 ∧
    (StartUDPForward f a p ta tp r b).2.1 =
      (StartUDPForward f a p ta' tp' r b).2.1 ∧
    (StartUDPForward f a p ta tp (.ok ra) (.ok hb)).2.1 = .ok ∧
    IsUDPRunning (StartUDPForward f a p ta tp (.ok ra) (.ok hb)).1 a p
      = true ∧
    handleUDPForward .err writeOk reads = ⟨[], [], false⟩ := by
  refine ⟨?_, ?_, ?_, ?_, rfl⟩
  · rcases hl : lookupKey f.udpListeners (udpKey a p) with _ | v
    · cases r with
      | err => simp [StartUDPForward, hl]
      | ok addr => cases b <;> simp [StartUDPForward, hl]
    · simp [StartUDPForward, hl]
  · rcases hl : lookupKey f.udpListeners (udpKey a p) with _ | v
    · cases r with
      | err => simp [StartUDPForward, hl]
      | ok addr => cases b <;> simp [StartUDPForward, hl]
    · simp [StartUDPForward, hl]
  · simp [StartUDPForward, habs]
  · simp [StartUDPForward, habs, IsUDPRunning, lookupKey]

/-- C10, witness: the theorem applied on the empty registry, with an
unresolvable target: the start succeeds and the session is registered,
while the relay goroutine does nothing. -/
theorem udp_start_ignores_target_witness :
    (StartUDPForward NewForwarder "0.0.0.0" "5353" "bad.example" "53"
        (.ok 0) (.ok 2)).2.1 = .ok ∧
    IsUDPRunning (StartUDPForward NewForwarder "0.0.0.0" "5353"
        "bad.example" "53" (.ok 0) (.ok 2)).1 "0.0.0.0" "5353" = true ∧
    handleUDPForward .err (fun _ => true) [.dgram [1, 2] 9] =
      ⟨[], [], false⟩ := by
  have h := udp_start_ignores_target NewForwarder "0.0.0.0" "5353"
    "bad.example" "53" "bad.example" "53" (.ok 0) (.ok 2) 0 2
    (fun _ => true) [.dgram [1, 2] 9] (by decide)
  exact ⟨h.2.2.1, h.2.2.2.1, h.2.2.2.2⟩

end GoPorts
